import Mathlib

/-!
Verification development for the rcgal sweep-line segment-intersection engine
(`src/algorithm/intersection/sweep_segment_2_intersection.rs`).

The driver is generic over a numeric type `T : NumberType` (an abstract field
with `sqrt`, `pi` and a tolerant `equals`, per spec §6).  We instantiate the
carrier with exact rational arithmetic — a legitimate instance of the numeric
contract in which `equals` is exact equality; all concrete scenarios in the
spec use coordinates that are exact in this model.  The carrier `Q` below is
a canonical-fraction implementation of the rationals whose operations reduce
inside the Lean kernel, so concrete runs of the engine can be settled by
`decide`/`rfl`.

Components of the repository that are not under `src/` (the `Point2` type,
`number_type.rs`, the AVL tree and priority queue, `arc_segment_2.rs`,
`circle_segment_2.rs`, the containment oracle for lines and the pairwise
intersection oracle) are modelled from the spec; each such definition carries
a doc comment starting with `Modelled from the spec:`.  Everything else is a
direct translation of the Rust source.
-/

/-- Fuel-bounded Euclid's algorithm; with fuel at least the first argument it
computes `Nat.gcd`, by structural recursion so that it reduces in the kernel. -/
def gcdF : Nat → Nat → Nat → Nat
  | _, 0, y => y
  | 0, _ + 1, y => y
  | f + 1, x + 1, y => gcdF f (y % (x + 1)) (x + 1)

theorem gcdF_eq (f : Nat) : ∀ x y : Nat, x ≤ f → gcdF f x y = Nat.gcd x y := by
  induction f with
  | zero =>
    intro x y hx
    interval_cases x
    simp [gcdF, Nat.gcd]
  | succ f ih =>
    intro x y hx
    match x with
    | 0 => simp [gcdF, Nat.gcd]
    | x + 1 =>
      rw [gcdF, Nat.gcd_succ]
      exact ih _ _ (Nat.le_of_lt_succ (Nat.lt_of_lt_of_le (Nat.mod_lt y (Nat.succ_pos x)) hx))

/-- `Nat.gcd` computed by kernel-reducible structural recursion. -/
def qgcd (x y : Nat) : Nat := gcdF x x y

theorem qgcd_eq (x y : Nat) : qgcd x y = Nat.gcd x y := gcdF_eq x x y le_rfl

/-- Modelled from the spec: the numeric type (`number_type.rs` is not under
`src/`).  Exact rationals in canonical form: an integer numerator and a
positive natural denominator with the fraction kept reduced by construction,
so that the tolerant `equals` of the numeric contract is literal structure
equality.  All operations reduce in the kernel. -/
structure Q where
  num : Int
  den : Nat
  dpos : 0 < den
  red : num.natAbs.Coprime den

instance : DecidableEq Q := fun a b =>
  if h : a.num = b.num ∧ a.den = b.den then
    isTrue (by cases a; cases b; cases h.1; cases h.2; rfl)
  else
    isFalse (by intro e; cases e; exact h ⟨rfl, rfl⟩)

instance : Repr Q := ⟨fun q _ => repr (q.num, q.den)⟩

/-- Build the canonical fraction `n / d` for a positive denominator. -/
def normQ (n : Int) (d : Nat) (hd : 0 < d) : Q :=
  let g := qgcd n.natAbs d
  have hgg : g = Nat.gcd n.natAbs d := qgcd_eq _ _
  have hg : 0 < g := by
    rw [hgg]
    exact Nat.gcd_pos_of_pos_right _ hd
  have hgd : g ∣ d := by
    rw [hgg]
    exact Nat.gcd_dvd_right _ _
  have hgn : (g : Int) ∣ n := by
    rw [Int.natCast_dvd, hgg]
    exact Nat.gcd_dvd_left _ _
  ⟨n / (g : Int), d / g, Nat.div_pos (Nat.le_of_dvd hd hgd) hg, by
    rw [Int.natAbs_ediv _ _ hgn, Int.natAbs_ofNat, hgg]
    exact Nat.coprime_div_gcd_div_gcd (by rw [← hgg]; exact hg)⟩

/-- The canonical rational zero. -/
def qZero : Q := ⟨0, 1, Nat.one_pos, Nat.coprime_one_right _⟩

/-- The canonical fraction `n / d` (`0` when `d = 0`, a case never used). -/
def qOf (n : Int) (d : Nat) : Q :=
  if hd : 0 < d then normQ n d hd else qZero

instance (n : Nat) : OfNat Q n :=
  ⟨⟨(n : Int), 1, Nat.one_pos, Nat.coprime_one_right _⟩⟩

/-- Negation on `Q` (canonical form is preserved). -/
def Q.neg (a : Q) : Q :=
  ⟨-a.num, a.den, a.dpos, by rw [Int.natAbs_neg]; exact a.red⟩

instance : Neg Q := ⟨Q.neg⟩

/-- Addition on `Q`. -/
def Q.add (a b : Q) : Q :=
  normQ (a.num * (b.den : Int) + b.num * (a.den : Int)) (a.den * b.den)
    (Nat.mul_pos a.dpos b.dpos)

instance : Add Q := ⟨Q.add⟩

/-- Subtraction on `Q`. -/
def Q.sub (a b : Q) : Q :=
  normQ (a.num * (b.den : Int) - b.num * (a.den : Int)) (a.den * b.den)
    (Nat.mul_pos a.dpos b.dpos)

instance : Sub Q := ⟨Q.sub⟩

/-- Multiplication on `Q`. -/
def Q.mul (a b : Q) : Q :=
  normQ (a.num * b.num) (a.den * b.den) (Nat.mul_pos a.dpos b.dpos)

instance : Mul Q := ⟨Q.mul⟩

/-- Division on `Q` (`0` on division by zero, a case the driver guards). -/
def Q.div (a b : Q) : Q :=
  if hb : b.num = 0 then qZero
  else
    have hd : 0 < a.den * b.num.natAbs :=
      Nat.mul_pos a.dpos (Int.natAbs_pos.mpr hb)
    if 0 ≤ b.num then normQ (a.num * (b.den : Int)) (a.den * b.num.natAbs) hd
    else normQ (-(a.num * (b.den : Int))) (a.den * b.num.natAbs) hd

instance : Div Q := ⟨Q.div⟩

/-- The strict order on `Q`, by cross multiplication (denominators are
positive). -/
def Q.lt (a b : Q) : Prop := a.num * (b.den : Int) < b.num * (a.den : Int)

instance : LT Q := ⟨Q.lt⟩

instance (a b : Q) : Decidable (a < b) :=
  inferInstanceAs (Decidable (a.num * (b.den : Int) < b.num * (a.den : Int)))

/-- The semantics of `Q`: the Mathlib rational with the same canonical
numerator and denominator.  Used only in proofs of order facts. -/
def Q.toRat (q : Q) : ℚ := ⟨q.num, q.den, Nat.pos_iff_ne_zero.mp q.dpos, q.red⟩

theorem Q.toRat_inj {a b : Q} (h : a.toRat = b.toRat) : a = b := by
  cases a
  cases b
  injection h with h1 h2
  cases h1
  cases h2
  rfl

theorem Q.lt_iff {a b : Q} : a < b ↔ a.toRat < b.toRat := by
  rw [Rat.lt_def]
  exact Iff.rfl

theorem Q.lt_asymm {a b : Q} (h : a < b) : ¬ b < a := fun h2 =>
  absurd (Q.lt_iff.mp h2) (not_lt_of_gt (Q.lt_iff.mp h))

theorem Q.lt_trans {a b c : Q} (h1 : a < b) (h2 : b < c) : a < c :=
  Q.lt_iff.mpr (Trans.trans (Q.lt_iff.mp h1) (Q.lt_iff.mp h2))

theorem Q.lt_total (a b : Q) : a < b ∨ a = b ∨ b < a := by
  rcases lt_trichotomy a.toRat b.toRat with h | h | h
  · exact Or.inl (Q.lt_iff.mpr h)
  · exact Or.inr (Or.inl (Q.toRat_inj h))
  · exact Or.inr (Or.inr (Q.lt_iff.mpr h))

theorem Q.lt_irrefl (a : Q) : ¬ a < a := fun h =>
  absurd (Q.lt_iff.mp h) (by simp)

/-- A planar point with rational coordinates (`point_2.rs`, spec §3). -/
structure Point2 where
  x : Q
  y : Q
deriving DecidableEq, Repr

/-- A straight line segment, `line_segment_2.rs`. -/
structure LineSegment2 where
  source : Point2
  target : Point2
deriving DecidableEq, Repr

/-- An arc segment: circle data plus source/target radians (`arc_segment_2.rs`,
spec §3). -/
structure ArcSegment2 where
  center : Point2
  radius : Q
  source_radian : Q
  target_radian : Q
deriving DecidableEq, Repr

/-- A full circle (`circle_segment_2.rs`): center and radius. -/
structure CircleSegment2 where
  center : Point2
  radius : Q
deriving DecidableEq, Repr

/-- The tag returned by `Segment2::segment_type` (`util_enum.rs`). -/
inductive Segment2Type where
  | lineSegment2
  | circleSegment2
  | arcSegment2
deriving DecidableEq, Repr

/-- The enum `StatusNodeSegment<T>` of the driver: a normalized segment is
either a line or an arc. -/
inductive StatusNodeSegment where
  | line (s : LineSegment2)
  | arc (s : ArcSegment2)
deriving DecidableEq, Repr

/-- The record `StatusNode<T>`: stored key value, insertion point, segment. -/
structure StatusNode where
  value : Q
  point : Point2
  segment : StatusNodeSegment
deriving DecidableEq, Repr

/-- Modelled from the spec: the external collaborators whose source files are
not under `src/` — the numeric type's `sqrt` and `pi` (`number_type.rs`,
spec §6), the arc-segment primitives (`arc_segment_2.rs`: endpoint
construction from radians, the `is_top` flag of §3, the monotone
decomposition of §4.1), the arc containment oracle
`is_point_2_on_arc_segment_2` (§6), and the arc-involving cases of the
pairwise intersection oracle `intersect` (§6).  The development is
parametric in this record; line-only runs never consult any of its fields. -/
structure Collab where
  sqrt : Q → Q
  pi : Q
  arcSource : ArcSegment2 → Point2
  arcTarget : ArcSegment2 → Point2
  arcIsTop : ArcSegment2 → Bool
  arcMonotone : ArcSegment2 → List ArcSegment2
  onArc : Point2 → ArcSegment2 → Bool
  intersectWithArc : StatusNodeSegment → StatusNodeSegment → List Point2

/-- Modelled from the spec: the comparator of `Point2` (`point_2.rs` is not
under `src/`).  Spec §4.1(a) — lines are stored with `source > target` "so the
sweep first meets the source" — forces `>` on points to mean sweep-earlier,
i.e. the comparator inverts the (x, y)-lexicographic sweep order of §3; the
output order asserted by the in-src test (largest `x` first) confirms this. -/
def ptCmp (a b : Point2) : Ordering :=
  if a.x = b.x then
    if a.y = b.y then Ordering.eq
    else if a.y < b.y then Ordering.gt
    else Ordering.lt
  else if a.x < b.x then Ordering.gt
  else Ordering.lt

/-- Sweep-order strict comparison used by the event queue: `a` strictly before
`b` when `a.x < b.x`, or at equal `x` when `a.y < b.y` (spec §3). -/
def sweepLt (a b : Point2) : Prop :=
  a.x < b.x ∨ (a.x = b.x ∧ a.y < b.y)

instance (a b : Point2) : Decidable (sweepLt a b) := by
  unfold sweepLt
  infer_instance

/-- Modelled from the spec: ordered-map insertion with duplicates rejected
(the `DisableSameNode` AVL configuration, spec §2).  The balanced tree is
modelled by its in-order traversal, a list kept sorted by the comparator. -/
def insNoDup (cmp : α → α → Ordering) (x : α) : List α → List α
  | [] => [x]
  | y :: ys =>
    match cmp x y with
    | Ordering.lt => x :: y :: ys
    | Ordering.eq => y :: ys
    | Ordering.gt => y :: insNoDup cmp x ys

/-- Modelled from the spec: ordered insertion with equal keys going to the
right (the `SameNodeInsertRight` AVL configuration, spec §2); also the stable
insertion used to model Rust's stable `sort_by`. -/
def insRight (cmp : α → α → Ordering) (x : α) : List α → List α
  | [] => [x]
  | y :: ys =>
    if cmp x y = Ordering.lt then x :: y :: ys
    else y :: insRight cmp x ys

/-- Modelled from the spec: Rust's stable `Vec::sort_by`, as repeated ordered
insertion keeping equal elements in their original relative order. -/
def sortByStable (cmp : α → α → Ordering) (l : List α) : List α :=
  l.foldl (fun acc x => insRight cmp x acc) []

/-- Modelled from the spec: deletion from the status structure.  Per §9
("status-entry equality is determined by segment identity ... deletion by
value-plus-identity"), the entry removed is the first one equal to the key
under the identity-based equality of `StatusNode`'s `PartialEq`. -/
def avlDelete (eqf : α → α → Bool) (k : α) : List α → List α
  | [] => []
  | y :: ys => if eqf y k then ys else y :: avlDelete eqf k ys

/-- Modelled from the spec: the monotone event queue of §4.2, "minimum-first
by `x` then by `y`".  `pop` extracts a sweep-least element; duplicate pushes
are tolerated. -/
def popMin : List Point2 → Option (Point2 × List Point2)
  | [] => none
  | x :: xs =>
    match popMin xs with
    | none => some (x, [])
    | some (m, rest) =>
      if sweepLt m x then some (m, x :: rest) else some (x, xs)

/-- Boolean `≤` on `Q` via strict order and equality (kept separate from the
`Prop`-level order so that all definitions evaluate by kernel reduction). -/
def qle (a b : Q) : Bool := decide (a < b) || decide (a = b)

/-- Boolean bounding-box test: does `v` lie between `a` and `b` inclusive? -/
def qbetween (a b v : Q) : Bool := (qle a v && qle v b) || (qle b v && qle v a)

/-- Modelled from the spec: the containment oracle
`is_point_2_on_line_segment_2` (§6): `p` lies on the closed segment iff it is
collinear with the endpoints and inside their bounding box.  Exact over `Q`. -/
def is_point_2_on_line_segment_2 (p : Point2) (l : LineSegment2) : Bool :=
  decide ((l.target.x - l.source.x) * (p.y - l.source.y)
            = (l.target.y - l.source.y) * (p.x - l.source.x))
  && qbetween l.source.x l.target.x p.x
  && qbetween l.source.y l.target.y p.y

/-- Modelled from the spec: the line-line case of the pairwise intersection
oracle `intersect` (§6), closed-form by Cramer's rule; parallel or collinear
pairs yield no points.  Arc-involving pairs are delegated to the collaborator
record. -/
def line_line_intersection (a b : LineSegment2) : List Point2 :=
  let d1x := a.target.x - a.source.x
  let d1y := a.target.y - a.source.y
  let d2x := b.target.x - b.source.x
  let d2y := b.target.y - b.source.y
  let denom := d1x * d2y - d1y * d2x
  if denom = 0 then []
  else
    let ex := b.source.x - a.source.x
    let ey := b.source.y - a.source.y
    let t := (ex * d2y - ey * d2x) / denom
    let u := (ex * d1y - ey * d1x) / denom
    if qle 0 t && qle t 1 && qle 0 u && qle u 1 then
      [⟨a.source.x + t * d1x, a.source.y + t * d1y⟩]
    else []

/-- The dispatching pairwise oracle `segment_2_segment_2_intersection`
(`segment_2_segment_2.rs` is not under `src/`): the line-line case is the
modelled closed form, arc-involving cases come from the collaborator. -/
def segment_2_segment_2_intersection (co : Collab)
    (a b : StatusNodeSegment) : List Point2 :=
  match a, b with
  | StatusNodeSegment.line la, StatusNodeSegment.line lb =>
      line_line_intersection la lb
  | _, _ => co.intersectWithArc a b

/-- `calculate_slope`: chord slope of a line, `None` when vertical. -/
def calculate_slope (source target : Point2) : Option Q :=
  let x := target.x - source.x
  let y := target.y - source.y
  if x = 0 then none else some (y / x)

/-- `calculate_tangent_slope`: tangent slope of a circle at `point`,
`-(px - cx)/(py - cy)`, `None` when the tangent is vertical. -/
def calculate_tangent_slope (center point : Point2) : Option Q :=
  let x := point.x - center.x
  let y := point.y - center.y
  if y = 0 then none else some (-x / y)

/-- `calculate_segment_value`: the `y` of the curve at the probe's abscissa.
Lines: probed `y` when vertical, else linear interpolation.  Arcs: the square
root of the raw radicand `r*r - (x - cx)^2` is taken (note: unclamped here),
and the root lying on the arc is chosen, falling back to the probed `y`. -/
def calculate_segment_value (co : Collab) (seg : StatusNodeSegment)
    (point : Point2) : Q :=
  match seg with
  | StatusNodeSegment.line l =>
    if l.source.x = l.target.x then point.y
    else
      l.source.y + (point.x - l.source.x) * (l.target.y - l.source.y)
        / (l.target.x - l.source.x)
  | StatusNodeSegment.arc a =>
    let y := a.radius * a.radius - (point.x - a.center.x) * (point.x - a.center.x)
    let y := co.sqrt y
    let y_a := a.center.y + y
    let y_b := a.center.y - y
    if co.onArc ⟨point.x, y_a⟩ a then y_a
    else if co.onArc ⟨point.x, y_b⟩ a then y_b
    else point.y

/-- `get_target_of_segment`: a line's target; for an arc, its source endpoint
when the arc is a top arc, otherwise its target endpoint. -/
def get_target_of_segment (co : Collab) (seg : StatusNodeSegment) : Point2 :=
  match seg with
  | StatusNodeSegment.line l => l.target
  | StatusNodeSegment.arc a =>
    if co.arcIsTop a then co.arcSource a else co.arcTarget a

/-- `calculate_mid_value`: probe both segments at the midpoint of the event
point and the lesser (under the `Point2` comparator) of the two targets. -/
def calculate_mid_value (co : Collab) (a b : StatusNodeSegment)
    (event_point : Point2) : Q × Q :=
  let target_a := get_target_of_segment co a
  let target_b := get_target_of_segment co b
  let target := if ptCmp target_a target_b = Ordering.lt then target_a else target_b
  let mid : Point2 := ⟨(event_point.x + target.x) * (1/2),
                       (event_point.y + target.y) * (1/2)⟩
  (calculate_segment_value co a mid, calculate_segment_value co b mid)

/-- `compare_segments_same_slope`: order by value at the midpoint probe. -/
def compare_segments_same_slope (co : Collab) (a b : StatusNodeSegment)
    (event_point : Point2) : Ordering :=
  let mv := calculate_mid_value co a b event_point
  if mv.1 = mv.2 then Ordering.eq
  else if mv.1 < mv.2 then Ordering.lt
  else Ordering.gt

/-- `compare_segments`: value at the event abscissa, then tangent slope
(defined slopes precede undefined ones), then the midpoint probe. -/
def compare_segments (co : Collab) (a b : StatusNodeSegment)
    (event_point : Point2) : Ordering :=
  let va := calculate_segment_value co a event_point
  let vb := calculate_segment_value co b event_point
  if va = vb then
    let sa := match a with
      | StatusNodeSegment.line l => calculate_slope l.source l.target
      | StatusNodeSegment.arc t => calculate_tangent_slope t.center event_point
    let sb := match b with
      | StatusNodeSegment.line l => calculate_slope l.source l.target
      | StatusNodeSegment.arc t => calculate_tangent_slope t.center event_point
    match sa, sb with
    | some x, some y =>
      if x = y then compare_segments_same_slope co a b event_point
      else if x < y then Ordering.lt
      else Ordering.gt
    | some _, none => Ordering.lt
    | none, some _ => Ordering.gt
    | none, none => compare_segments_same_slope co a b event_point
  else if va < vb then Ordering.lt
  else Ordering.gt

/-- The identity-based equality of `StatusNode`'s `PartialEq`: lines compare
by endpoints, arcs by center, radius and computed endpoints; mixed shapes are
never equal. -/
def sameSegment (co : Collab) (a b : StatusNodeSegment) : Bool :=
  match a, b with
  | StatusNodeSegment.line s, StatusNodeSegment.line t =>
      decide (s.source = t.source) && decide (s.target = t.target)
  | StatusNodeSegment.arc s, StatusNodeSegment.arc t =>
      decide (s.center = t.center) && decide (s.radius = t.radius)
      && decide (co.arcSource s = co.arcSource t)
      && decide (co.arcTarget s = co.arcTarget t)
  | _, _ => false

/-- `StatusNode::eq`: status entries are equal iff their segments are the same
by identity. -/
def statusNodeEq (co : Collab) (a b : StatusNode) : Bool :=
  sameSegment co a.segment b.segment

/-- `StatusNode::cmp`: by stored value; on equal values, identical segments
are `eq`, otherwise `compare_segments` probed at the lesser (under the
`Point2` comparator) of the two recorded insertion points. -/
def statusNodeCmp (co : Collab) (a b : StatusNode) : Ordering :=
  if a.value = b.value then
    let point := if ptCmp a.point b.point = Ordering.gt then b.point else a.point
    if sameSegment co a.segment b.segment then Ordering.eq
    else compare_segments co a.segment b.segment point
  else if a.value < b.value then Ordering.lt
  else Ordering.gt

/-- The engine state `SweepSegment2Intersection<T>`: the two segment lists,
the event queue, the status tree, the intersection-point index, and the
carried-over `last_event_point`. -/
structure SweepState where
  origin_segments : List StatusNodeSegment
  segments : List StatusNodeSegment
  event_queue : List Point2
  status_tree : List StatusNode
  intersection_points : List Point2
  last_event_point : Option Point2
deriving Repr

/-- `SweepSegment2Intersection::new()`: the empty engine. -/
def SweepState.new : SweepState :=
  { origin_segments := []
    segments := []
    event_queue := []
    status_tree := []
    intersection_points := []
    last_event_point := none }

/-- The shape of a segment handed to `push_segment` (an `impl Segment2`
value): a line, a full circle, or an arc. -/
inductive PushedSegment where
  | line (s : LineSegment2)
  | circle (s : CircleSegment2)
  | arc (s : ArcSegment2)
deriving Repr

/-- `push_segment`: lines are stored verbatim in `origin_segments` and with
`source > target` (under the `Point2` comparator) in `segments`; circles are
stored as a full `[0, 2π]` arc in `origin_segments` and as the two semi-arcs
`[0, π]`, `[π, 2π]` in `segments`; arcs are stored verbatim in
`origin_segments` and as their monotone pieces in `segments`. -/
def push_segment (co : Collab) (seg : PushedSegment) (st : SweepState) :
    SweepState :=
  match seg with
  | PushedSegment.line l =>
    { st with
      origin_segments := st.origin_segments
        ++ [StatusNodeSegment.line ⟨l.source, l.target⟩]
      segments := st.segments
        ++ [if ptCmp l.source l.target = Ordering.gt then
              StatusNodeSegment.line ⟨l.source, l.target⟩
            else
              StatusNodeSegment.line ⟨l.target, l.source⟩] }
  | PushedSegment.circle c =>
    { st with
      origin_segments := st.origin_segments
        ++ [StatusNodeSegment.arc ⟨c.center, c.radius, 0, co.pi * 2⟩]
      segments := st.segments
        ++ [StatusNodeSegment.arc ⟨c.center, c.radius, 0, co.pi⟩,
            StatusNodeSegment.arc ⟨c.center, c.radius, co.pi, co.pi * 2⟩] }
  | PushedSegment.arc a =>
    { st with
      origin_segments := st.origin_segments ++ [StatusNodeSegment.arc a]
      segments := st.segments
        ++ (co.arcMonotone a).map StatusNodeSegment.arc }

/-- Whether a point lies on an original segment: the line containment oracle
for lines, the arc containment oracle for arcs (used by the post-filter). -/
def containsSeg (co : Collab) (p : Point2) (seg : StatusNodeSegment) : Bool :=
  match seg with
  | StatusNodeSegment.line l => is_point_2_on_line_segment_2 p l
  | StatusNodeSegment.arc a => co.onArc p a

/-- The inner loop of `filter_intersection_points`: walk the original
segments accumulating `sum`, emitting as soon as `sum > 1`. -/
def filter_point_loop (co : Collab) (p : Point2) :
    Nat → List StatusNodeSegment → Bool
  | _, [] => false
  | sum, seg :: rest =>
    let sum := if containsSeg co p seg then sum + 1 else sum
    if 1 < sum then true else filter_point_loop co p sum rest

/-- `filter_intersection_points`: keep, in order, the candidate points for
which the walk over `origin_segments` reaches a containment count above 1. -/
def filter_intersection_points (co : Collab)
    (origin : List StatusNodeSegment) (points : List Point2) : List Point2 :=
  points.filter (fun p => filter_point_loop co p 0 origin)

/-- `get_segment_with_source` (the U set): segments of `self.segments` whose
first-met endpoint is the event point — the source for lines; for arcs the
target when the arc is a top arc, the source otherwise. -/
def get_segment_with_source (co : Collab) (segments : List StatusNodeSegment)
    (event_point : Point2) : List StatusNodeSegment :=
  segments.filter fun seg =>
    match seg with
    | StatusNodeSegment.line l => decide (l.source = event_point)
    | StatusNodeSegment.arc a =>
      (co.arcIsTop a && decide (co.arcTarget a = event_point))
      || (!co.arcIsTop a && decide (co.arcSource a = event_point))

/-- `get_active_segment_with_target` (the L set): status-tree segments whose
last-met endpoint is the event point. -/
def get_active_segment_with_target (co : Collab) (tree : List StatusNode)
    (target : Point2) : List StatusNodeSegment :=
  (tree.map StatusNode.segment).filter fun seg =>
    match seg with
    | StatusNodeSegment.line l => decide (l.target = target)
    | StatusNodeSegment.arc a =>
      (co.arcIsTop a && decide (co.arcSource a = target))
      || (!co.arcIsTop a && decide (co.arcTarget a = target))

/-- `get_active_segment_containing_point` (the C set): status-tree segments
whose interior (endpoints excluded) contains the event point, by the
containment oracles. -/
def get_active_segment_containing_point (co : Collab)
    (tree : List StatusNode) (point : Point2) : List StatusNodeSegment :=
  (tree.map StatusNode.segment).filter fun seg =>
    match seg with
    | StatusNodeSegment.line l =>
      !(decide (l.source = point) || decide (l.target = point))
      && is_point_2_on_line_segment_2 point l
    | StatusNodeSegment.arc a =>
      !(decide (co.arcSource a = point) || decide (co.arcTarget a = point))
      && co.onArc point a

/-- The deletion key built by `handle_event_point` for an L- or C-segment:
its value at `last_event_point` when one exists, otherwise its source `y`. -/
def deleteKey (co : Collab) (lep : Option Point2) (seg : StatusNodeSegment)
    (event_point : Point2) : StatusNode :=
  { value :=
      match lep with
      | some p => calculate_segment_value co seg p
      | none =>
        match seg with
        | StatusNodeSegment.line l => l.source.y
        | StatusNodeSegment.arc a => (co.arcSource a).y
    point := event_point
    segment := seg }

/-- The scan of `get_neighbors_with_point`: find the first status node whose
value is at least the event's `y`, and return it with its predecessor. -/
def neighbors_scan (p : Point2) (prev : Option StatusNode) :
    List StatusNode → Option (StatusNodeSegment × StatusNodeSegment)
  | [] => none
  | x :: xs =>
    if decide (x.value = p.y) || decide (x.value > p.y) then
      match prev with
      | none => none
      | some q => some (q.segment, x.segment)
    else neighbors_scan p (some x) xs

/-- `get_neighbors_with_point`: the two status segments flanking the event's
`y` position, when both exist. -/
def get_neighbors_with_point (tree : List StatusNode) (point : Point2) :
    Option (StatusNodeSegment × StatusNodeSegment) :=
  neighbors_scan point none tree

/-- `get_left_right_in_u_c`: sort `U ++ C` by `compare_segments` at the event
point and return the least and greatest elements (`None` only when both sets
are empty; the caller guarantees non-emptiness). -/
def get_left_right_in_u_c (co : Collab)
    (source_is_p contain_p : List StatusNodeSegment) (event_point : Point2) :
    Option (StatusNodeSegment × StatusNodeSegment) :=
  let segs := sortByStable (fun a b => compare_segments co a b event_point)
    (source_is_p ++ contain_p)
  match segs with
  | [] => none
  | x :: xs => some (x, List.getLastD xs x)

/-- The scan of `get_left_of_segment`: locate the segment in the traversal by
identity and return the previous entry's segment (none at index 0). -/
def left_scan (co : Collab) (seg : StatusNodeSegment)
    (prev : Option StatusNodeSegment) :
    List StatusNode → Option StatusNodeSegment
  | [] => none
  | x :: xs =>
    if sameSegment co x.segment seg then prev
    else left_scan co seg (some x.segment) xs

/-- `get_left_of_segment`. -/
def get_left_of_segment (co : Collab) (seg : StatusNodeSegment)
    (mid_order : List StatusNode) : Option StatusNodeSegment :=
  left_scan co seg none mid_order

/-- The scan of `get_right_of_segment`: locate the segment in the traversal by
identity and return the next entry's segment (none at the last index). -/
def right_scan (co : Collab) (seg : StatusNodeSegment) :
    List StatusNode → Option StatusNodeSegment
  | [] => none
  | [x] => if sameSegment co x.segment seg then none else none
  | x :: y :: xs =>
    if sameSegment co x.segment seg then some y.segment
    else right_scan co seg (y :: xs)

/-- `get_right_of_segment`. -/
def get_right_of_segment (co : Collab) (seg : StatusNodeSegment)
    (mid_order : List StatusNode) : Option StatusNodeSegment :=
  right_scan co seg mid_order

/-- `find_intersection_points`: query the pairwise oracle on the two segments
and enqueue exactly the returned points strictly ahead of the event point in
sweep order. -/
def find_intersection_points (co : Collab) (a b : StatusNodeSegment)
    (event_point : Point2) (st : SweepState) : SweepState :=
  let points := segment_2_segment_2_intersection co a b
  { st with
    event_queue := st.event_queue
      ++ points.filter (fun p =>
           decide (p.x > event_point.x)
           || (decide (p.x = event_point.x) && decide (p.y > event_point.y))) }

/-- The neighbor-scheduling tail of `handle_event_point` (spec §4.5 step 5):
when only L-segments ended at the event, probe the two status segments now
flanking it; otherwise probe the extremes of `U ∪ C` against their outer
status-tree neighbors, accumulating queue pushes left to right. -/
def schedule_neighbors (co : Collab) (source_is_p_empty contain_p_empty : Bool)
    (source_is_p contain_p : List StatusNodeSegment) (tree : List StatusNode)
    (event_point : Point2) (st : SweepState) : SweepState :=
  if source_is_p_empty && contain_p_empty then
    match get_neighbors_with_point tree event_point with
    | some lr => find_intersection_points co lr.1 lr.2 event_point st
    | none => st
  else
    match get_left_right_in_u_c co source_is_p contain_p event_point with
    | none => st
    | some lr =>
      let st2 :=
        match get_left_of_segment co lr.1 tree with
        | some seg => find_intersection_points co lr.1 seg event_point st
        | none => st
      match get_right_of_segment co lr.2 tree with
      | some seg => find_intersection_points co lr.2 seg event_point st2
      | none => st2

/-- `handle_event_point`: the per-event body of the sweep (spec §4.5).
Computes U, L, C; skips empty events; records the event as an intersection
when the three lists hold more than one entry; deletes L- and C-segments by
their previous key; rebuilds the status tree sorted at the new abscissa; and
schedules candidate intersections between new neighbors. -/
def handle_event_point (co : Collab) (st : SweepState) (event_point : Point2) :
    SweepState :=
  let source_is_p := get_segment_with_source co st.segments event_point
  let target_is_p := get_active_segment_with_target co st.status_tree event_point
  let contain_p := get_active_segment_containing_point co st.status_tree event_point
  if source_is_p.isEmpty && target_is_p.isEmpty && contain_p.isEmpty then st
  else
    let ipts :=
      if 1 < source_is_p.length + target_is_p.length + contain_p.length then
        insNoDup ptCmp event_point st.intersection_points
      else st.intersection_points
    let tree := target_is_p.foldl
      (fun tr seg =>
        avlDelete (statusNodeEq co) (deleteKey co st.last_event_point seg event_point) tr)
      st.status_tree
    let tree := contain_p.foldl
      (fun tr seg =>
        avlDelete (statusNodeEq co) (deleteKey co st.last_event_point seg event_point) tr)
      tree
    let source_is_p_empty := source_is_p.isEmpty
    let contain_p_empty := contain_p.isEmpty
    let reinserted := (tree.map StatusNode.segment) ++ source_is_p ++ contain_p
    let reinserted := sortByStable
      (fun a b => compare_segments co a b event_point) reinserted
    let tree := reinserted.foldl
      (fun tr seg =>
        insRight (statusNodeCmp co)
          { value := calculate_segment_value co seg event_point
            point := event_point
            segment := seg } tr)
      []
    schedule_neighbors co source_is_p_empty contain_p_empty source_is_p
      contain_p tree event_point
      { st with status_tree := tree, intersection_points := ipts }

/-- The `while !event_queue.is_empty()` loop of `intersection()`, with an
explicit fuel bound standing in for the unbounded Rust loop; each iteration
pops the sweep-least event, handles it, and records it as the last event.
Once the queue is empty, remaining fuel changes nothing. -/
def sweepLoop (co : Collab) : Nat → SweepState → SweepState
  | 0, st => st
  | n + 1, st =>
    match popMin st.event_queue with
    | none => st
    | some er =>
      let st := handle_event_point co { st with event_queue := er.2 } er.1
      sweepLoop co n { st with last_event_point := some er.1 }

/-- The initial event-queue content of `intersection()`: the endpoints of all
normalized segments, deduplicated through the intermediate ordered set. -/
def seedQueue (co : Collab) (segments : List StatusNodeSegment) : List Point2 :=
  segments.foldl
    (fun acc seg =>
      match seg with
      | StatusNodeSegment.line l =>
        insNoDup ptCmp l.target (insNoDup ptCmp l.source acc)
      | StatusNodeSegment.arc a =>
        insNoDup ptCmp (co.arcTarget a) (insNoDup ptCmp (co.arcSource a) acc))
    []

/-- The initialization of `intersection()`: clear the event queue, status
tree and point index (leaving `last_event_point` as carried over), and seed
the queue with the deduplicated endpoints of all normalized segments. -/
def seeded (co : Collab) (st : SweepState) : SweepState :=
  { st with
    event_queue := seedQueue co st.segments
    status_tree := []
    intersection_points := [] }

/-- `intersection()`: initialize, run the sweep, then filter the in-order
contents of the point index against the original segments.  Returns the
output vector together with the final engine state. -/
def intersection (co : Collab) (fuel : Nat) (st : SweepState) :
    List Point2 × SweepState :=
  let st := sweepLoop co fuel (seeded co st)
  (filter_intersection_points co st.origin_segments st.intersection_points, st)

/-- Modelled from the spec: a concrete instantiation of the collaborator
record, used for the concrete line-only scenarios of spec §8.  Line-only runs
never reach an arc code path, so any instantiation yields the same run; this
one maps every field to a constant. -/
def collab0 : Collab :=
  { sqrt := fun _ => 0
    pi := 0
    arcSource := fun _ => ⟨0, 0⟩
    arcTarget := fun _ => ⟨0, 0⟩
    arcIsTop := fun _ => false
    arcMonotone := fun _ => []
    onArc := fun _ _ => false
    intersectWithArc := fun _ _ => [] }

/-- Scenario A of spec §8: the five line segments, pushed via `push_segment`
onto a fresh engine in the order given by the spec and the in-src test. -/
def scenarioA (co : Collab) : SweepState :=
  push_segment co (PushedSegment.line ⟨⟨3, 12⟩, ⟨5, 0⟩⟩)
    (push_segment co (PushedSegment.line ⟨⟨3, 8⟩, ⟨10, 10⟩⟩)
      (push_segment co (PushedSegment.line ⟨⟨3, 0⟩, ⟨3, 15⟩⟩)
        (push_segment co (PushedSegment.line ⟨⟨0, 5⟩, ⟨5, 10⟩⟩)
          (push_segment co (PushedSegment.line ⟨⟨10, 10⟩, ⟨0, 10⟩⟩)
            SweepState.new))))

/-- The expected output of Scenario A, as exact rationals: the claim's
decimal literals are the shortest float prints of `40/11`, `90/11`, `25/7`,
`60/7` and `10/3`. -/
def expectedA : List Point2 :=
  [⟨10, 10⟩, ⟨5, 10⟩, ⟨qOf 40 11, qOf 90 11⟩, ⟨qOf 25 7, qOf 60 7⟩,
   ⟨qOf 10 3, 10⟩, ⟨3, 12⟩, ⟨3, 10⟩, ⟨3, 8⟩]

theorem sweepLoop_queue_nil (co : Collab) (n : Nat) (st : SweepState)
    (h : st.event_queue = []) : sweepLoop co n st = st := by
  cases n with
  | zero => rfl
  | succ n =>
    unfold sweepLoop
    rw [h]
    rfl

theorem popMin_none {l : List Point2} (h : popMin l = none) : l = [] := by
  cases l with
  | nil => rfl
  | cons x xs =>
    unfold popMin at h
    cases hp : popMin xs with
    | none => rw [hp] at h; exact absurd h (by simp)
    | some mr =>
      rw [hp] at h
      by_cases hlt : sweepLt mr.1 x
      · simp [hlt] at h
      · simp [hlt] at h

theorem sweepLoop_succ (co : Collab) (n : Nat) (st : SweepState) :
    sweepLoop co (n + 1) st =
      match popMin st.event_queue with
      | none => st
      | some er =>
        sweepLoop co n
          { handle_event_point co { st with event_queue := er.2 } er.1 with
            last_event_point := some er.1 } := rfl

theorem sweepLoop_add (co : Collab) (m n : Nat) :
    ∀ st : SweepState,
      sweepLoop co (m + n) st = sweepLoop co n (sweepLoop co m st) := by
  induction m with
  | zero =>
    intro st
    rw [Nat.zero_add]
    rfl
  | succ m ih =>
    intro st
    rw [Nat.succ_add, sweepLoop_succ co m st, sweepLoop_succ co (m + n) st]
    cases hq : popMin st.event_queue with
    | none =>
      exact (sweepLoop_queue_nil co n st (popMin_none hq)).symm
    | some er =>
      exact ih _

theorem schedule_frame (co : Collab) (b1 b2 : Bool)
    (u c : List StatusNodeSegment) (tree : List StatusNode) (e : Point2)
    (st : SweepState) :
    (schedule_neighbors co b1 b2 u c tree e st).segments = st.segments ∧
    (schedule_neighbors co b1 b2 u c tree e st).origin_segments
      = st.origin_segments ∧
    (schedule_neighbors co b1 b2 u c tree e st).last_event_point
      = st.last_event_point ∧
    (schedule_neighbors co b1 b2 u c tree e st).status_tree
      = st.status_tree ∧
    (schedule_neighbors co b1 b2 u c tree e st).intersection_points
      = st.intersection_points := by
  unfold schedule_neighbors
  repeat' split
  all_goals simp [find_intersection_points]

theorem handle_frame (co : Collab) (st : SweepState) (e : Point2) :
    (handle_event_point co st e).segments = st.segments ∧
    (handle_event_point co st e).origin_segments = st.origin_segments ∧
    (handle_event_point co st e).last_event_point = st.last_event_point := by
  simp only [handle_event_point]
  split
  · exact ⟨rfl, rfl, rfl⟩
  · refine ⟨?_, ?_, ?_⟩
    · rw [(schedule_frame co _ _ _ _ _ _ _).1]
    · rw [(schedule_frame co _ _ _ _ _ _ _).2.1]
    · rw [(schedule_frame co _ _ _ _ _ _ _).2.2.1]

theorem sweepLoop_frame (co : Collab) (n : Nat) :
    ∀ st : SweepState,
      (sweepLoop co n st).segments = st.segments ∧
      (sweepLoop co n st).origin_segments = st.origin_segments := by
  induction n with
  | zero => exact fun st => ⟨rfl, rfl⟩
  | succ n ih =>
    intro st
    rw [sweepLoop_succ]
    cases hq : popMin st.event_queue with
    | none => exact ⟨rfl, rfl⟩
    | some er =>
      refine ⟨?_, ?_⟩
      · rw [(ih _).1]
        exact (handle_frame co _ _).1
      · rw [(ih _).2]
        exact (handle_frame co _ _).2.1

theorem intersection_frame (co : Collab) (fuel : Nat) (st : SweepState) :
    (intersection co fuel st).2.segments = st.segments ∧
    (intersection co fuel st).2.origin_segments = st.origin_segments := by
  unfold intersection
  refine ⟨?_, ?_⟩
  · rw [(sweepLoop_frame co fuel _).1]
    rfl
  · rw [(sweepLoop_frame co fuel _).2]
    rfl

theorem find_intersection_points_queue (co : Collab) (a b : StatusNodeSegment)
    (e : Point2) (st : SweepState) :
    (find_intersection_points co a b e st).event_queue
      = st.event_queue
        ++ (segment_2_segment_2_intersection co a b).filter
             (fun p => decide (p.x > e.x ∨ (p.x = e.x ∧ p.y > e.y))) := by
  unfold find_intersection_points
  show st.event_queue ++ _ = st.event_queue ++ _
  congr 1
  refine List.filter_congr ?_
  intro p _
  by_cases h1 : p.x > e.x <;> by_cases h2 : p.x = e.x <;> by_cases h3 : p.y > e.y <;>
    simp [h1, h2, h3]

theorem filter_point_loop_iff (co : Collab) (p : Point2) :
    ∀ (l : List StatusNodeSegment) (n : Nat), n ≤ 1 →
      (filter_point_loop co p n l = true
        ↔ 2 ≤ n + l.countP (containsSeg co p)) := by
  intro l
  induction l with
  | nil =>
    intro n hn
    unfold filter_point_loop
    simp
    omega
  | cons s rest ih =>
    intro n hn
    unfold filter_point_loop
    by_cases hc : containsSeg co p s = true
    · rw [List.countP_cons_of_pos _ _ hc]
      simp only [hc, if_true]
      by_cases h1 : 1 < n + 1
      · rw [if_pos h1]
        simp
        omega
      · have hn0 : n = 0 := by omega
        subst hn0
        rw [if_neg h1, ih 1 le_rfl]
        omega
    · rw [List.countP_cons_of_neg _ _ hc]
      have hs : (if containsSeg co p s = true then n + 1 else n) = n := if_neg hc
      simp only [hs]
      rw [if_neg (by omega)]
      exact ih n hn

theorem filter_intersection_points_eq (co : Collab)
    (origin : List StatusNodeSegment) (pts : List Point2) :
    filter_intersection_points co origin pts
      = pts.filter (fun p => decide (2 ≤ origin.countP (containsSeg co p))) := by
  unfold filter_intersection_points
  refine List.filter_congr ?_
  intro p _
  have hiff := filter_point_loop_iff co p origin 0 (by omega)
  rw [Nat.zero_add] at hiff
  by_cases h : 2 ≤ origin.countP (containsSeg co p)
  · rw [hiff.mpr h, decide_eq_true h]
  · cases hb : filter_point_loop co p 0 origin with
    | false => rw [decide_eq_false h]
    | true => exact absurd (hiff.mp hb) h

/-- C3: `filter_intersection_points` emits a candidate point `p` iff at least
two original segments contain `p` (lines via the line containment oracle,
arcs via the arc containment oracle), keeping the input's relative order —
i.e. it is literally `List.filter` with the `≥ 2` containment count as
predicate; consequently every point returned by `intersection()` lies on at
least two original segments of the engine it was called on. -/
theorem claim_C3_filter_soundness :
    (∀ (co : Collab) (origin : List StatusNodeSegment) (pts : List Point2),
      filter_intersection_points co origin pts
        = pts.filter (fun p => decide (2 ≤ origin.countP (containsSeg co p))))
    ∧ (∀ (co : Collab) (fuel : Nat) (st : SweepState) (p : Point2),
        p ∈ (intersection co fuel st).1
          → 2 ≤ st.origin_segments.countP (containsSeg co p)) := by
  constructor
  · exact filter_intersection_points_eq
  · intro co fuel st p hp
    have horig : (sweepLoop co fuel (seeded co st)).origin_segments
        = st.origin_segments := by
      rw [(sweepLoop_frame co fuel _).2]
      rfl
    have hp2 : p ∈ filter_intersection_points co
        (sweepLoop co fuel (seeded co st)).origin_segments
        (sweepLoop co fuel (seeded co st)).intersection_points := hp
    rw [filter_intersection_points_eq] at hp2
    have := (List.mem_filter.mp hp2).2
    rw [horig] at this
    exact of_decide_eq_true this

/-- C4: `find_intersection_points` enqueues exactly those points returned by
the pairwise oracle that are strictly ahead of the event point in sweep
order — `p.x > e.x`, or `p.x = e.x` and `p.y > e.y` — appending them to the
event queue; points at or before the event point are never enqueued, and no
other state component changes. -/
theorem claim_C4_candidates_strictly_ahead (co : Collab)
    (a b : StatusNodeSegment) (e : Point2) (st : SweepState) :
    (find_intersection_points co a b e st).event_queue
      = st.event_queue
        ++ (segment_2_segment_2_intersection co a b).filter
             (fun p => decide (p.x > e.x ∨ (p.x = e.x ∧ p.y > e.y)))
    ∧ (find_intersection_points co a b e st).status_tree = st.status_tree
    ∧ (find_intersection_points co a b e st).intersection_points
        = st.intersection_points
    ∧ (find_intersection_points co a b e st).segments = st.segments
    ∧ (find_intersection_points co a b e st).origin_segments
        = st.origin_segments := by
  exact ⟨find_intersection_points_queue co a b e st, rfl, rfl, rfl, rfl⟩

/-- C8: `intersection()` leaves both segment lists unchanged, and
`push_segment` only appends to them: the lists before a push are a prefix of
the lists after it (every earlier element stays unchanged at its position). -/
theorem claim_C8_segment_lists_frame :
    (∀ (co : Collab) (fuel : Nat) (st : SweepState),
      (intersection co fuel st).2.segments = st.segments
      ∧ (intersection co fuel st).2.origin_segments = st.origin_segments)
    ∧ (∀ (co : Collab) (seg : PushedSegment) (st : SweepState),
        ∃ os ss,
          (push_segment co seg st).origin_segments = st.origin_segments ++ os
          ∧ (push_segment co seg st).segments = st.segments ++ ss) := by
  constructor
  · intro co fuel st
    exact intersection_frame co fuel st
  · intro co seg st
    cases seg with
    | line l => exact ⟨_, _, rfl, rfl⟩
    | circle c => exact ⟨_, _, rfl, rfl⟩
    | arc a => exact ⟨_, _, rfl, rfl⟩

/-- C10: on a fresh engine with no segments pushed, the event queue is seeded
empty, the sweep loop never changes the state, the point index stays empty,
and `intersection()` returns the empty vector. -/
theorem claim_C10_empty_engine (co : Collab) (fuel : Nat) :
    (seeded co SweepState.new).event_queue = []
    ∧ (intersection co fuel SweepState.new).2 = seeded co SweepState.new
    ∧ (intersection co fuel SweepState.new).2.intersection_points = []
    ∧ (intersection co fuel SweepState.new).1 = [] := by
  have h1 : (seeded co SweepState.new).event_queue = [] := rfl
  have h2 : sweepLoop co fuel (seeded co SweepState.new)
      = seeded co SweepState.new := sweepLoop_queue_nil co fuel _ h1
  refine ⟨h1, h2, ?_, ?_⟩
  · show (sweepLoop co fuel (seeded co SweepState.new)).intersection_points = []
    rw [h2]
    rfl
  · show filter_intersection_points co
      (sweepLoop co fuel (seeded co SweepState.new)).origin_segments
      (sweepLoop co fuel (seeded co SweepState.new)).intersection_points = []
    rw [h2]
    rfl

set_option maxRecDepth 10000 in
/-- C1: pushing the five Scenario A line segments via `push_segment` and
running `intersection()` (with any sufficient fuel for the loop, which
empties its queue within 24 events) returns exactly the eight points
(10,10), (5,10), (40/11, 90/11), (25/7, 60/7), (10/3, 10), (3,12), (3,10),
(3,8), in this order — the claim's decimal literals being the float prints
of these exact rationals. -/
theorem claim_C1_scenario_a (n : Nat) :
    (intersection collab0 (24 + n) (scenarioA collab0)).1 = expectedA := by
  have hq : (sweepLoop collab0 24
      (seeded collab0 (scenarioA collab0))).event_queue = [] := by decide
  have hstable : sweepLoop collab0 (24 + n) (seeded collab0 (scenarioA collab0))
      = sweepLoop collab0 24 (seeded collab0 (scenarioA collab0)) := by
    rw [sweepLoop_add collab0 24 n]
    exact sweepLoop_queue_nil collab0 n _ hq
  show filter_intersection_points collab0
      (sweepLoop collab0 (24 + n) (seeded collab0 (scenarioA collab0))).origin_segments
      (sweepLoop collab0 (24 + n) (seeded collab0 (scenarioA collab0))).intersection_points
    = expectedA
  rw [hstable]
  decide

theorem ptCmp_lt_iff {a b : Point2} :
    ptCmp a b = Ordering.lt ↔ (b.x < a.x ∨ (a.x = b.x ∧ b.y < a.y)) := by
  unfold ptCmp
  by_cases h1 : a.x = b.x
  · rw [if_pos h1]
    by_cases h2 : a.y = b.y
    · rw [if_pos h2]
      constructor
      · intro h
        simp at h
      · rintro (hlt | ⟨-, hlt⟩)
        · rw [h1] at hlt
          exact absurd hlt (Q.lt_irrefl _)
        · rw [h2] at hlt
          exact absurd hlt (Q.lt_irrefl _)
    · rw [if_neg h2]
      by_cases h3 : a.y < b.y
      · rw [if_pos h3]
        constructor
        · intro h
          simp at h
        · rintro (hlt | ⟨-, hlt⟩)
          · rw [h1] at hlt
            exact absurd hlt (Q.lt_irrefl _)
          · exact absurd h3 (Q.lt_asymm hlt)
      · rw [if_neg h3]
        constructor
        · intro _
          refine Or.inr ⟨h1, ?_⟩
          rcases Q.lt_total a.y b.y with h | h | h
          · exact absurd h h3
          · exact absurd h h2
          · exact h
        · intro _
          rfl
  · rw [if_neg h1]
    by_cases h4 : a.x < b.x
    · rw [if_pos h4]
      constructor
      · intro h
        simp at h
      · rintro (hlt | ⟨heq, -⟩)
        · exact absurd h4 (Q.lt_asymm hlt)
        · exact absurd heq h1
    · rw [if_neg h4]
      constructor
      · intro _
        refine Or.inl ?_
        rcases Q.lt_total a.x b.x with h | h | h
        · exact absurd h h4
        · exact absurd h h1
        · exact h
      · intro _
        rfl

theorem ptCmp_gt_iff {a b : Point2} :
    ptCmp a b = Ordering.gt ↔ (a.x < b.x ∨ (a.x = b.x ∧ a.y < b.y)) := by
  unfold ptCmp
  by_cases h1 : a.x = b.x
  · rw [if_pos h1]
    by_cases h2 : a.y = b.y
    · rw [if_pos h2]
      constructor
      · intro h
        simp at h
      · rintro (hlt | ⟨-, hlt⟩)
        · rw [h1] at hlt
          exact absurd hlt (Q.lt_irrefl _)
        · rw [h2] at hlt
          exact absurd hlt (Q.lt_irrefl _)
    · rw [if_neg h2]
      by_cases h3 : a.y < b.y
      · rw [if_pos h3]
        simp [h1, h3]
      · rw [if_neg h3]
        constructor
        · intro h
          simp at h
        · rintro (hlt | ⟨-, hlt⟩)
          · rw [h1] at hlt
            exact absurd hlt (Q.lt_irrefl _)
          · exact absurd hlt h3
  · rw [if_neg h1]
    by_cases h4 : a.x < b.x
    · rw [if_pos h4]
      simp [h4]
    · rw [if_neg h4]
      constructor
      · intro h
        simp at h
      · rintro (hlt | ⟨heq, -⟩)
        · exact absurd hlt h4
        · exact absurd heq h1

theorem ptCmp_flip {a b : Point2} (h : ptCmp a b = Ordering.gt) :
    ptCmp b a = Ordering.lt := by
  rw [ptCmp_gt_iff] at h
  rw [ptCmp_lt_iff]
  rcases h with h | ⟨he, hy⟩
  · exact Or.inl h
  · exact Or.inr ⟨he.symm, hy⟩

theorem ptCmp_lt_trans {a b c : Point2} (h1 : ptCmp a b = Ordering.lt)
    (h2 : ptCmp b c = Ordering.lt) : ptCmp a c = Ordering.lt := by
  rw [ptCmp_lt_iff] at h1 h2
  rw [ptCmp_lt_iff]
  rcases h1 with h1 | ⟨e1, y1⟩
  · rcases h2 with h2 | ⟨e2, y2⟩
    · exact Or.inl (Q.lt_trans h2 h1)
    · exact Or.inl (e2 ▸ h1)
  · rcases h2 with h2 | ⟨e2, y2⟩
    · refine Or.inl ?_
      rw [e1]
      exact h2
    · exact Or.inr ⟨e1.trans e2, Q.lt_trans y2 y1⟩

/-- The sortedness invariant of the duplicate-rejecting point index: strictly
increasing under the `Point2` comparator. -/
def SortedPt (l : List Point2) : Prop :=
  l.Pairwise (fun p q => ptCmp p q = Ordering.lt)

theorem mem_insNoDup {cmp : α → α → Ordering} {x z : α} :
    ∀ {l : List α}, z ∈ insNoDup cmp x l → z = x ∨ z ∈ l := by
  intro l
  induction l with
  | nil =>
    intro h
    unfold insNoDup at h
    simp at h
    exact Or.inl h
  | cons y ys ih =>
    intro h
    unfold insNoDup at h
    cases hc : cmp x y with
    | lt =>
      rw [hc] at h
      rcases List.mem_cons.mp h with h | h
      · exact Or.inl h
      · exact Or.inr h
    | eq =>
      rw [hc] at h
      exact Or.inr h
    | gt =>
      rw [hc] at h
      rcases List.mem_cons.mp h with h | h
      · exact Or.inr (h ▸ List.mem_cons_self _ _)
      · rcases ih h with h | h
        · exact Or.inl h
        · exact Or.inr (List.mem_cons_of_mem _ h)

theorem insNoDup_sorted {x : Point2} :
    ∀ {l : List Point2}, SortedPt l → SortedPt (insNoDup ptCmp x l) := by
  intro l
  induction l with
  | nil =>
    intro _
    unfold insNoDup
    exact List.pairwise_singleton _ _
  | cons y ys ih =>
    intro hs
    rcases List.pairwise_cons.mp hs with ⟨hy, hys⟩
    unfold insNoDup
    cases hc : ptCmp x y with
    | lt =>
      refine List.pairwise_cons.mpr ⟨?_, hs⟩
      intro z hz
      rcases List.mem_cons.mp hz with h | h
      · exact h ▸ hc
      · exact ptCmp_lt_trans hc (hy z h)
    | eq => exact hs
    | gt =>
      refine List.pairwise_cons.mpr ⟨?_, ih hys⟩
      intro z hz
      rcases mem_insNoDup hz with h | h
      · exact h ▸ ptCmp_flip hc
      · exact hy z h

theorem handle_ipts (co : Collab) (st : SweepState) (e : Point2) :
    (handle_event_point co st e).intersection_points = st.intersection_points
    ∨ (handle_event_point co st e).intersection_points
        = insNoDup ptCmp e st.intersection_points := by
  simp only [handle_event_point]
  split
  · exact Or.inl rfl
  · rw [(schedule_frame co _ _ _ _ _ _ _).2.2.2.2]
    split
    · exact Or.inr rfl
    · exact Or.inl rfl

theorem sweepLoop_ipts_sorted (co : Collab) (n : Nat) :
    ∀ st : SweepState, SortedPt st.intersection_points
      → SortedPt (sweepLoop co n st).intersection_points := by
  induction n with
  | zero => exact fun st h => h
  | succ n ih =>
    intro st hs
    rw [sweepLoop_succ]
    cases hq : popMin st.event_queue with
    | none => exact hs
    | some er =>
      refine ih _ ?_
      show SortedPt (handle_event_point co { st with event_queue := er.2 } er.1).intersection_points
      rcases handle_ipts co { st with event_queue := er.2 } er.1 with h | h
      · rw [h]
        exact hs
      · rw [h]
        exact insNoDup_sorted hs

/-- C2 (as amended): for every engine state and fuel, the vector returned by
`intersection()` is strictly sorted by decreasing `x` and, for equal `x`, by
decreasing `y` — the in-order traversal order of the point index, whose
comparator inverts the coordinate order.  (The spec's claim of increasing
order is refuted by the counterexample below.) -/
theorem claim_C2_amended_output_descending (co : Collab) (fuel : Nat)
    (st : SweepState) :
    ((intersection co fuel st).1).Pairwise
      (fun p q => q.x < p.x ∨ (p.x = q.x ∧ q.y < p.y)) := by
  show (filter_intersection_points co
      (sweepLoop co fuel (seeded co st)).origin_segments
      (sweepLoop co fuel (seeded co st)).intersection_points).Pairwise _
  rw [filter_intersection_points_eq]
  have hsorted : SortedPt (sweepLoop co fuel (seeded co st)).intersection_points := by
    refine sweepLoop_ipts_sorted co fuel _ ?_
    show SortedPt ([] : List Point2)
    exact List.Pairwise.nil
  exact List.Pairwise.filter _ (hsorted.imp (fun h => ptCmp_lt_iff.mp h))

/-- The three-line input refuting C2 as stated: a rising diagonal, a falling
diagonal and a horizontal line, crossing pairwise at (1,1), (2,2), (3,1). -/
def scenarioC2 (co : Collab) : SweepState :=
  push_segment co (PushedSegment.line ⟨⟨0, 1⟩, ⟨4, 1⟩⟩)
    (push_segment co (PushedSegment.line ⟨⟨0, 4⟩, ⟨4, 0⟩⟩)
      (push_segment co (PushedSegment.line ⟨⟨0, 0⟩, ⟨4, 4⟩⟩)
        SweepState.new))

set_option maxRecDepth 10000 in
/-- C2 (counterexample): on the three-line input above, `intersection()`
returns (3,1), (2,2), (1,1) — strictly decreasing in `x`, not sorted by
increasing `x` then `y` as the claim states. -/
theorem claim_C2_counterexample :
    (intersection collab0 16 (scenarioC2 collab0)).1
      = [⟨3, 1⟩, ⟨2, 2⟩, ⟨1, 1⟩]
    ∧ ¬ ([(⟨3, 1⟩ : Point2), ⟨2, 2⟩, ⟨1, 1⟩].Pairwise
          (fun p q => p.x < q.x ∨ (p.x = q.x ∧ p.y < q.y))) := by
  constructor
  · decide
  · intro h
    have := (List.pairwise_cons.mp h).1 ⟨2, 2⟩ (List.mem_cons_self _ _)
    rcases this with h1 | ⟨h1, -⟩
    · exact absurd h1 (by decide)
    · exact absurd h1 (by decide)

theorem ptCmp_eq_iff {a b : Point2} : ptCmp a b = Ordering.eq ↔ a = b := by
  constructor
  · intro h
    unfold ptCmp at h
    by_cases h1 : a.x = b.x
    · rw [if_pos h1] at h
      by_cases h2 : a.y = b.y
      · cases a
        cases b
        dsimp at h1 h2
        rw [h1, h2]
      · rw [if_neg h2] at h
        split at h <;> simp at h
    · rw [if_neg h1] at h
      split at h <;> simp at h
  · intro he
    rw [he]
    unfold ptCmp
    rw [if_pos rfl, if_pos rfl]

theorem mem_insNoDup_self {x : Point2} : ∀ l : List Point2, x ∈ insNoDup ptCmp x l := by
  intro l
  induction l with
  | nil =>
    unfold insNoDup
    exact List.mem_cons_self _ _
  | cons y ys ih =>
    unfold insNoDup
    cases hc : ptCmp x y with
    | lt => exact List.mem_cons_self _ _
    | eq =>
      rw [ptCmp_eq_iff.mp hc]
      exact List.mem_cons_self _ _
    | gt => exact List.mem_cons_of_mem _ ih

theorem mem_insNoDup_of_mem {cmp : α → α → Ordering} {x z : α} :
    ∀ {l : List α}, z ∈ l → z ∈ insNoDup cmp x l := by
  intro l
  induction l with
  | nil =>
    intro h
    simp at h
  | cons y ys ih =>
    intro h
    unfold insNoDup
    cases hc : cmp x y with
    | lt => exact List.mem_cons_of_mem _ h
    | eq => exact h
    | gt =>
      rcases List.mem_cons.mp h with h | h
      · exact h ▸ List.mem_cons_self _ _
      · exact List.mem_cons_of_mem _ (ih h)

/-- The number of distinct segments in a list (set cardinality of its
members), used to state C6's set-union reading. -/
def distinctSegs (l : List StatusNodeSegment) : List StatusNodeSegment :=
  l.foldl (fun acc s => if s ∈ acc then acc else acc ++ [s]) []

/-- C6 (as amended): `handle_event_point` inserts the event point into the
intersection-point index (duplicates suppressed) iff the three lists U, L, C
it computes hold more than one entry in total — entries counted with
multiplicity, not as a set union. -/
theorem claim_C6_amended_insert_iff_multiplicity (co : Collab)
    (st : SweepState) (e : Point2) :
    e ∈ (handle_event_point co st e).intersection_points
      ↔ (2 ≤ (get_segment_with_source co st.segments e).length
            + (get_active_segment_with_target co st.status_tree e).length
            + (get_active_segment_containing_point co st.status_tree e).length
          ∨ e ∈ st.intersection_points) := by
  simp only [handle_event_point]
  split
  · next h =>
    simp only [Bool.and_eq_true] at h
    obtain ⟨⟨h1, h2⟩, h3⟩ := h
    rw [List.isEmpty_iff.mp h1, List.isEmpty_iff.mp h2, List.isEmpty_iff.mp h3]
    simp
  · rw [(schedule_frame co _ _ _ _ _ _ _).2.2.2.2]
    split
    · next h =>
      refine iff_of_true (mem_insNoDup_self _) (Or.inl (by omega))
    · next h =>
      rw [or_iff_right (by omega)]

/-- The same line segment pushed twice: at its shared source event the
driver's U list holds two entries but only one distinct segment. -/
def scenarioDup (co : Collab) : SweepState :=
  push_segment co (PushedSegment.line ⟨⟨0, 0⟩, ⟨1, 1⟩⟩)
    (push_segment co (PushedSegment.line ⟨⟨0, 0⟩, ⟨1, 1⟩⟩)
      SweepState.new)

/-- The state of the duplicate-line run at its first popped event (0,0):
the seeding of `intersection()` enqueues the two deduplicated endpoints and
the loop pops (0,0) first. -/
def dupFirstState : SweepState :=
  { seeded collab0 (scenarioDup collab0) with event_queue := [⟨1, 1⟩] }

set_option maxRecDepth 10000 in
/-- C6 (counterexample): with the same segment pushed twice, at the first
event (0,0) of the actual run the driver inserts (0,0) into the index, yet
the union of U, L, C as a set of segments has cardinality 1, not ≥ 2 — so
insertion is not equivalent to the set-union cardinality test the claim
states. -/
theorem claim_C6_counterexample :
    popMin (seeded collab0 (scenarioDup collab0)).event_queue
      = some (⟨0, 0⟩, [⟨1, 1⟩])
    ∧ ¬ ((⟨0, 0⟩ : Point2)
            ∈ (handle_event_point collab0 dupFirstState ⟨0, 0⟩).intersection_points
          ↔ 2 ≤ (distinctSegs
              (get_segment_with_source collab0 dupFirstState.segments ⟨0, 0⟩
                ++ get_active_segment_with_target collab0
                     dupFirstState.status_tree ⟨0, 0⟩
                ++ get_active_segment_containing_point collab0
                     dupFirstState.status_tree ⟨0, 0⟩)).length) := by
  constructor
  · decide
  · decide

theorem schedule_lep (co : Collab) (b1 b2 : Bool)
    (u c : List StatusNodeSegment) (tree : List StatusNode) (e : Point2)
    (og sg : List StatusNodeSegment) (q : List Point2) (tr : List StatusNode)
    (ip : List Point2) (a b : Option Point2) :
    schedule_neighbors co b1 b2 u c tree e (SweepState.mk og sg q tr ip a)
      = { schedule_neighbors co b1 b2 u c tree e (SweepState.mk og sg q tr ip b)
          with last_event_point := a } := by
  unfold schedule_neighbors
  repeat' split
  all_goals simp [find_intersection_points]

theorem handle_lep (co : Collab) (og sg : List StatusNodeSegment)
    (q ip : List Point2) (a b : Option Point2) (e : Point2) :
    { handle_event_point co (SweepState.mk og sg q [] ip a) e with
      last_event_point := some e }
      = { handle_event_point co (SweepState.mk og sg q [] ip b) e with
          last_event_point := some e } := by
  simp only [handle_event_point, get_active_segment_with_target,
    get_active_segment_containing_point, List.map_nil, List.filter_nil,
    List.foldl_nil]
  split
  · rfl
  · rw [schedule_lep co _ _ _ _ _ _ og sg q _ _ a b]

theorem sweepLoop_lep_congr (co : Collab) (n : Nat)
    (og sg : List StatusNodeSegment) (q ip : List Point2)
    (a b : Option Point2) :
    (sweepLoop co n (SweepState.mk og sg q [] ip a)).intersection_points
      = (sweepLoop co n (SweepState.mk og sg q [] ip b)).intersection_points
    ∧ (sweepLoop co n (SweepState.mk og sg q [] ip a)).origin_segments
      = (sweepLoop co n (SweepState.mk og sg q [] ip b)).origin_segments := by
  cases n with
  | zero => exact ⟨rfl, rfl⟩
  | succ n =>
    rw [sweepLoop_succ, sweepLoop_succ]
    dsimp only
    cases hq : popMin q with
    | none => exact ⟨rfl, rfl⟩
    | some er =>
      dsimp only
      have heq := handle_lep co og sg er.2 ip a b er.1
      dsimp only at heq
      rw [heq]
      exact ⟨rfl, rfl⟩

theorem intersection_out_congr (co : Collab) (fuel : Nat)
    (s1 s2 : SweepState) (hsg : s1.segments = s2.segments)
    (hog : s1.origin_segments = s2.origin_segments) :
    (intersection co fuel s1).1 = (intersection co fuel s2).1 := by
  show filter_intersection_points co
      (sweepLoop co fuel (seeded co s1)).origin_segments
      (sweepLoop co fuel (seeded co s1)).intersection_points
    = filter_intersection_points co
      (sweepLoop co fuel (seeded co s2)).origin_segments
      (sweepLoop co fuel (seeded co s2)).intersection_points
  have h1 : seeded co s1 = SweepState.mk s1.origin_segments s1.segments
      (seedQueue co s1.segments) [] [] s1.last_event_point := rfl
  have h2 : seeded co s2 = SweepState.mk s2.origin_segments s2.segments
      (seedQueue co s2.segments) [] [] s2.last_event_point := rfl
  rw [h1, h2, hsg, hog]
  have := sweepLoop_lep_congr co fuel s2.origin_segments s2.segments
    (seedQueue co s2.segments) [] s1.last_event_point s2.last_event_point
  rw [this.1, this.2]

/-- C7: for every engine built by a sequence of `push_segment` calls, two
consecutive `intersection()` invocations (with no pushes in between) return
equal output vectors: each call re-initializes the event queue, status tree
and point index, the segment lists are untouched, and the carried-over
`last_event_point` cannot influence a run (it is only read when deleting
from the status tree, which is empty until the run's own first event has
been processed and has overwritten it). -/
theorem claim_C7_repeated_runs_equal (co : Collab) (fuel : Nat)
    (segs : List PushedSegment) :
    (intersection co fuel
        ((intersection co fuel
            (segs.foldl (fun s x => push_segment co x s) SweepState.new)).2)).1
      = (intersection co fuel
          (segs.foldl (fun s x => push_segment co x s) SweepState.new)).1 := by
  apply intersection_out_congr
  · exact (intersection_frame co fuel _).1
  · exact (intersection_frame co fuel _).2

/-- The raw radicand `r*r - (x - cx)^2` of the arc branch of
`calculate_segment_value`. -/
def arcRadicand (a : ArcSegment2) (p : Point2) : Q :=
  a.radius * a.radius - (p.x - a.center.x) * (p.x - a.center.x)

/-- The claim's reading of spec §7 (stated for comparison with the source's
`calculate_segment_value`): the radicand clamped at zero before `sqrt` is
applied, all else equal. -/
def calculate_segment_value_clamped (co : Collab) (seg : StatusNodeSegment)
    (point : Point2) : Q :=
  match seg with
  | StatusNodeSegment.line l =>
    if l.source.x = l.target.x then point.y
    else
      l.source.y + (point.x - l.source.x) * (l.target.y - l.source.y)
        / (l.target.x - l.source.x)
  | StatusNodeSegment.arc a =>
    let y := a.radius * a.radius - (point.x - a.center.x) * (point.x - a.center.x)
    let y := co.sqrt (if y < 0 then 0 else y)
    let y_a := a.center.y + y
    let y_b := a.center.y - y
    if co.onArc ⟨point.x, y_a⟩ a then y_a
    else if co.onArc ⟨point.x, y_b⟩ a then y_b
    else point.y

/-- C5 (as amended): `calculate_segment_value` performs no clamping itself —
its arc branch applies the collaborator's `sqrt` to the raw radicand
`r*r - (x - cx)^2`; it agrees with the clamped variant precisely under the
spec's §7 numeric contract, i.e. whenever the collaborator's `sqrt` is
insensitive to clamping negatives to zero.  (The counterexample below shows
the two differ for a `sqrt` that distinguishes negative arguments, at a
radicand of `-3`.) -/
theorem claim_C5_amended_no_clamp_in_segment_value :
    (∀ (co : Collab) (a : ArcSegment2) (p : Point2),
      calculate_segment_value co (StatusNodeSegment.arc a) p
        = (let y := co.sqrt (arcRadicand a p)
           let y_a := a.center.y + y
           let y_b := a.center.y - y
           if co.onArc ⟨p.x, y_a⟩ a then y_a
           else if co.onArc ⟨p.x, y_b⟩ a then y_b
           else p.y))
    ∧ (∀ co : Collab,
        (∀ x : Q, co.sqrt x = co.sqrt (if x < 0 then 0 else x))
        → ∀ (seg : StatusNodeSegment) (p : Point2),
            calculate_segment_value co seg p
              = calculate_segment_value_clamped co seg p) := by
  constructor
  · intro co a p
    rfl
  · intro co h seg p
    cases seg with
    | line l => rfl
    | arc a =>
      simp only [calculate_segment_value, calculate_segment_value_clamped]
      rw [← h]

/-- A collaborator whose `sqrt` clamps negatives to zero (and is the
identity on the rest), satisfying the spec's §7 clamping contract. -/
def collabClamp : Collab :=
  { collab0 with sqrt := fun x => if x < 0 then 0 else x }

/-- A collaborator whose `sqrt` distinguishes negative arguments, together
with an arc oracle that always answers yes — used to observe the unclamped
radicand. -/
def collabSign : Collab :=
  { collab0 with
    sqrt := fun x => if x < 0 then 1000 else 0
    onArc := fun _ _ => true }

/-- The unit circle arc probed at abscissa 2: radicand `1 - 4 = -3`. -/
def arcW : ArcSegment2 := ⟨⟨0, 0⟩, 1, 0, 3⟩

/-- The probe point with abscissa 2. -/
def pW : Point2 := ⟨2, 0⟩

/-- C5 witness: the amended theorem applied at the clamping collaborator and
the concrete arc and probe point. -/
theorem claim_C5_amended_witness :
    calculate_segment_value collabClamp (StatusNodeSegment.arc arcW) pW
      = calculate_segment_value_clamped collabClamp (StatusNodeSegment.arc arcW) pW :=
  claim_C5_amended_no_clamp_in_segment_value.2 collabClamp
    (by
      intro x
      show (if x < 0 then (0 : Q) else x)
        = (if (if x < 0 then (0 : Q) else x) < 0 then (0 : Q)
           else if x < 0 then (0 : Q) else x)
      by_cases hx : x < 0
      · rw [if_pos hx, if_neg (Q.lt_irrefl 0)]
      · rw [if_neg hx, if_neg hx])
    (StatusNodeSegment.arc arcW) pW

/-- C5 (counterexample): at the unit-circle arc probed at `x = 2` the raw
radicand is `-3 < 0`, and under a `sqrt` that distinguishes negative
arguments the source's `calculate_segment_value` differs from the clamped
variant — so the radicand is not clamped at zero before `sqrt` is applied,
and `sqrt` is called on a negative argument. -/
theorem claim_C5_counterexample :
    arcRadicand arcW pW < 0
    ∧ calculate_segment_value collabSign (StatusNodeSegment.arc arcW) pW
        ≠ calculate_segment_value_clamped collabSign (StatusNodeSegment.arc arcW) pW := by
  constructor
  · decide
  · decide

/-- The `segment_type` tag of a pushed segment (`Segment2::segment_type`). -/
def PushedSegment.segment_type : PushedSegment → Segment2Type
  | PushedSegment.line _ => Segment2Type.lineSegment2
  | PushedSegment.circle _ => Segment2Type.circleSegment2
  | PushedSegment.arc _ => Segment2Type.arcSegment2

/-- `Segment2::source` as a partial accessor: `none` models the panicking
branches (`CircleSegment2` has no `source`; `LineSegment2` has one). -/
def PushedSegment.sourceAcc (co : Collab) : PushedSegment → Option Point2
  | PushedSegment.line l => some l.source
  | PushedSegment.circle _ => none
  | PushedSegment.arc a => some (co.arcSource a)

/-- `Segment2::target` as a partial accessor. -/
def PushedSegment.targetAcc (co : Collab) : PushedSegment → Option Point2
  | PushedSegment.line l => some l.target
  | PushedSegment.circle _ => none
  | PushedSegment.arc a => some (co.arcTarget a)

/-- `Segment2::center` as a partial accessor: panics (`none`) on lines. -/
def PushedSegment.centerAcc : PushedSegment → Option Point2
  | PushedSegment.line _ => none
  | PushedSegment.circle c => some c.center
  | PushedSegment.arc a => some a.center

/-- `Segment2::radius` as a partial accessor: panics (`none`) on lines. -/
def PushedSegment.radiusAcc : PushedSegment → Option Q
  | PushedSegment.line _ => none
  | PushedSegment.circle c => some c.radius
  | PushedSegment.arc a => some a.radius

/-- `Segment2::source_radian` as a partial accessor: panics on lines and
circles. -/
def PushedSegment.sourceRadianAcc : PushedSegment → Option Q
  | PushedSegment.line _ => none
  | PushedSegment.circle _ => none
  | PushedSegment.arc a => some a.source_radian

/-- `Segment2::target_radian` as a partial accessor: panics on lines and
circles. -/
def PushedSegment.targetRadianAcc : PushedSegment → Option Q
  | PushedSegment.line _ => none
  | PushedSegment.circle _ => none
  | PushedSegment.arc a => some a.target_radian

/-- The `segment_type` tag of a normalized segment. -/
def StatusNodeSegment.segType : StatusNodeSegment → Segment2Type
  | StatusNodeSegment.line _ => Segment2Type.lineSegment2
  | StatusNodeSegment.arc _ => Segment2Type.arcSegment2

/-- `source` on a normalized segment; total on both shapes. -/
def StatusNodeSegment.sourceAcc (co : Collab) : StatusNodeSegment → Option Point2
  | StatusNodeSegment.line l => some l.source
  | StatusNodeSegment.arc a => some (co.arcSource a)

/-- `target` on a normalized segment; total on both shapes. -/
def StatusNodeSegment.targetAcc (co : Collab) : StatusNodeSegment → Option Point2
  | StatusNodeSegment.line l => some l.target
  | StatusNodeSegment.arc a => some (co.arcTarget a)

/-- `center` on a normalized segment: panics (`none`) on lines. -/
def StatusNodeSegment.centerAcc : StatusNodeSegment → Option Point2
  | StatusNodeSegment.line _ => none
  | StatusNodeSegment.arc a => some a.center

/-- `radius` on a normalized segment: panics (`none`) on lines. -/
def StatusNodeSegment.radiusAcc : StatusNodeSegment → Option Q
  | StatusNodeSegment.line _ => none
  | StatusNodeSegment.arc a => some a.radius

/-- `source_radian` on a normalized segment: panics (`none`) on lines. -/
def StatusNodeSegment.sourceRadianAcc : StatusNodeSegment → Option Q
  | StatusNodeSegment.line _ => none
  | StatusNodeSegment.arc a => some a.source_radian

/-- `target_radian` on a normalized segment: panics (`none`) on lines. -/
def StatusNodeSegment.targetRadianAcc : StatusNodeSegment → Option Q
  | StatusNodeSegment.line _ => none
  | StatusNodeSegment.arc a => some a.target_radian

/-- `push_segment` written the way the source dispatches — match on the
`segment_type()` tag, then reach every field through the partial trait
accessors, propagating a panic as `none`. -/
def push_segment_checked (co : Collab) (seg : PushedSegment) (st : SweepState) :
    Option SweepState :=
  match seg.segment_type with
  | Segment2Type.lineSegment2 => do
    let source ← seg.sourceAcc co
    let target ← seg.targetAcc co
    pure { st with
      origin_segments := st.origin_segments
        ++ [StatusNodeSegment.line ⟨source, target⟩]
      segments := st.segments
        ++ [if ptCmp source target = Ordering.gt then
              StatusNodeSegment.line ⟨source, target⟩
            else
              StatusNodeSegment.line ⟨target, source⟩] }
  | Segment2Type.circleSegment2 => do
    let center ← seg.centerAcc
    let radius ← seg.radiusAcc
    pure { st with
      origin_segments := st.origin_segments
        ++ [StatusNodeSegment.arc ⟨center, radius, 0, co.pi * 2⟩]
      segments := st.segments
        ++ [StatusNodeSegment.arc ⟨center, radius, 0, co.pi⟩,
            StatusNodeSegment.arc ⟨center, radius, co.pi, co.pi * 2⟩] }
  | Segment2Type.arcSegment2 => do
    let center ← seg.centerAcc
    let radius ← seg.radiusAcc
    let sr ← seg.sourceRadianAcc
    let tr ← seg.targetRadianAcc
    pure { st with
      origin_segments := st.origin_segments
        ++ [StatusNodeSegment.arc ⟨center, radius, sr, tr⟩]
      segments := st.segments
        ++ (co.arcMonotone ⟨center, radius, sr, tr⟩).map StatusNodeSegment.arc }

/-- `calculate_segment_value` written the way the source dispatches: match on
the tag, then reach fields through the partial accessors (the arc branch also
rebuilds the arc handed to the containment oracle, which itself reads the
arc-only accessors). -/
def calculate_segment_value_checked (co : Collab) (seg : StatusNodeSegment)
    (point : Point2) : Option Q :=
  match seg.segType with
  | Segment2Type.lineSegment2 => do
    let source ← seg.sourceAcc co
    let target ← seg.targetAcc co
    pure (if source.x = target.x then point.y
      else source.y + (point.x - source.x) * (target.y - source.y)
        / (target.x - source.x))
  | _ => do
    let radius ← seg.radiusAcc
    let center ← seg.centerAcc
    let sr ← seg.sourceRadianAcc
    let tr ← seg.targetRadianAcc
    let arc : ArcSegment2 := ⟨center, radius, sr, tr⟩
    let y := radius * radius - (point.x - center.x) * (point.x - center.x)
    let y := co.sqrt y
    let y_a := center.y + y
    let y_b := center.y - y
    pure (if co.onArc ⟨point.x, y_a⟩ arc then y_a
      else if co.onArc ⟨point.x, y_b⟩ arc then y_b
      else point.y)

/-- `get_target_of_segment` through the partial accessors: the arc branch
reconstructs the arc from `center`, `radius`, `source_radian`,
`target_radian`, exactly as the source does. -/
def get_target_of_segment_checked (co : Collab) (seg : StatusNodeSegment) :
    Option Point2 :=
  match seg.segType with
  | Segment2Type.lineSegment2 => seg.targetAcc co
  | _ => do
    let center ← seg.centerAcc
    let radius ← seg.radiusAcc
    let sr ← seg.sourceRadianAcc
    let tr ← seg.targetRadianAcc
    let arc : ArcSegment2 := ⟨center, radius, sr, tr⟩
    pure (if co.arcIsTop arc then co.arcSource arc else co.arcTarget arc)

/-- `calculate_mid_value` through the partial accessors. -/
def calculate_mid_value_checked (co : Collab) (a b : StatusNodeSegment)
    (event_point : Point2) : Option (Q × Q) := do
  let target_a ← get_target_of_segment_checked co a
  let target_b ← get_target_of_segment_checked co b
  let target := if ptCmp target_a target_b = Ordering.lt then target_a else target_b
  let mid : Point2 := ⟨(event_point.x + target.x) * (1/2),
                       (event_point.y + target.y) * (1/2)⟩
  let va ← calculate_segment_value_checked co a mid
  let vb ← calculate_segment_value_checked co b mid
  pure (va, vb)

/-- `compare_segments_same_slope` through the partial accessors. -/
def compare_segments_same_slope_checked (co : Collab)
    (a b : StatusNodeSegment) (event_point : Point2) : Option Ordering := do
  let mv ← calculate_mid_value_checked co a b event_point
  pure (if mv.1 = mv.2 then Ordering.eq
    else if mv.1 < mv.2 then Ordering.lt
    else Ordering.gt)

/-- `compare_segments` through the partial accessors: the slope of a line
reads `source`/`target`, the tangent slope of an arc reads `center`. -/
def compare_segments_checked (co : Collab) (a b : StatusNodeSegment)
    (event_point : Point2) : Option Ordering := do
  let va ← calculate_segment_value_checked co a event_point
  let vb ← calculate_segment_value_checked co b event_point
  if va = vb then
    let sa ← (match a.segType with
      | Segment2Type.lineSegment2 => do
        let s ← a.sourceAcc co
        let t ← a.targetAcc co
        pure (calculate_slope s t)
      | _ => do
        let c ← a.centerAcc
        pure (calculate_tangent_slope c event_point))
    let sb ← (match b.segType with
      | Segment2Type.lineSegment2 => do
        let s ← b.sourceAcc co
        let t ← b.targetAcc co
        pure (calculate_slope s t)
      | _ => do
        let c ← b.centerAcc
        pure (calculate_tangent_slope c event_point))
    match sa, sb with
    | some x, some y =>
      if x = y then compare_segments_same_slope_checked co a b event_point
      else if x < y then pure Ordering.lt
      else pure Ordering.gt
    | some _, none => pure Ordering.lt
    | none, some _ => pure Ordering.gt
    | none, none => compare_segments_same_slope_checked co a b event_point
  else if va < vb then pure Ordering.lt
  else pure Ordering.gt

theorem optBind_pure (v : α) (f : α → Option β) :
    (pure v : Option α).bind f = f v := rfl

theorem push_checked_eq (co : Collab) (seg : PushedSegment) (st : SweepState) :
    push_segment_checked co seg st = some (push_segment co seg st) := by
  cases seg <;> rfl

theorem csv_checked_eq (co : Collab) (seg : StatusNodeSegment) (p : Point2) :
    calculate_segment_value_checked co seg p
      = some (calculate_segment_value co seg p) := by
  cases seg <;> rfl

theorem target_checked_eq (co : Collab) (seg : StatusNodeSegment) :
    get_target_of_segment_checked co seg
      = some (get_target_of_segment co seg) := by
  cases seg <;> rfl

theorem mid_checked_eq (co : Collab) (a b : StatusNodeSegment) (e : Point2) :
    calculate_mid_value_checked co a b e
      = some (calculate_mid_value co a b e) := by
  cases a <;> cases b <;> rfl

theorem same_slope_checked_eq (co : Collab) (a b : StatusNodeSegment)
    (e : Point2) :
    compare_segments_same_slope_checked co a b e
      = some (compare_segments_same_slope co a b e) := by
  cases a <;> cases b <;> rfl

theorem compare_checked_eq (co : Collab) (a b : StatusNodeSegment)
    (e : Point2) :
    compare_segments_checked co a b e = some (compare_segments co a b e) := by
  cases a <;> cases b <;>
    (simp only [compare_segments_checked, compare_segments, csv_checked_eq,
       StatusNodeSegment.segType, StatusNodeSegment.sourceAcc,
       StatusNodeSegment.targetAcc, StatusNodeSegment.centerAcc, optBind_pure]
     repeat' split
     all_goals (try simp_all)
     all_goals exact same_slope_checked_eq co _ _ e)

/-- C9: the driver never invokes a panicking accessor of `LineSegment2`.
The functions below are exactly the code paths of `push_segment` and
`intersection()` that call trait accessors on a value of generic segment
type — `push_segment` on its input, and the order-function chain
`calculate_segment_value`, `get_target_of_segment`, `calculate_mid_value`,
`compare_segments_same_slope`, `compare_segments` on normalized segments
(every other accessor use in the driver is on a matched enum payload, total
by construction).  Rewritten to dispatch on `segment_type` and reach fields
only through partial accessors that return `none` exactly where the source
panics (`center`, `radius`, `source_radian`, `target_radian` on lines), each
returns `some` of the direct embedding on every input: the panicking
branches are unreachable from the driver. -/
theorem claim_C9_no_line_accessor_panic :
    (∀ (co : Collab) (seg : PushedSegment) (st : SweepState),
        push_segment_checked co seg st = some (push_segment co seg st))
    ∧ (∀ (co : Collab) (seg : StatusNodeSegment) (p : Point2),
        calculate_segment_value_checked co seg p
          = some (calculate_segment_value co seg p))
    ∧ (∀ (co : Collab) (seg : StatusNodeSegment),
        get_target_of_segment_checked co seg
          = some (get_target_of_segment co seg))
    ∧ (∀ (co : Collab) (a b : StatusNodeSegment) (e : Point2),
        calculate_mid_value_checked co a b e
          = some (calculate_mid_value co a b e))
    ∧ (∀ (co : Collab) (a b : StatusNodeSegment) (e : Point2),
        compare_segments_same_slope_checked co a b e
          = some (compare_segments_same_slope co a b e))
    ∧ (∀ (co : Collab) (a b : StatusNodeSegment) (e : Point2),
        compare_segments_checked co a b e
          = some (compare_segments co a b e)) :=
  ⟨push_checked_eq, csv_checked_eq, target_checked_eq, mid_checked_eq,
   same_slope_checked_eq, compare_checked_eq⟩

set_option maxRecDepth 10000 in
/-- C3 witness: the soundness half of the filter theorem applied to the
duplicate-line engine at the output point (1,1). -/
theorem claim_C3_filter_soundness_witness :
    2 ≤ (scenarioDup collab0).origin_segments.countP
      (containsSeg collab0 ⟨1, 1⟩) :=
  claim_C3_filter_soundness.2 collab0 4 (scenarioDup collab0) ⟨1, 1⟩ (by decide)
